/-
Verification of the queue / experiment / preview core of the
youtube-to-linkedin repository against its natural-language specification.

The Python source is shallowly embedded: Redis-backed state is modelled as
explicit association lists (Python dicts preserve insertion order; updates
replace in place, inserts go to the end), floats that only ever hold
multiples of 0.5 between 1.0 and 5.0 are modelled as rationals, and
fallible external calls are modelled as `Except` parameters.
-/
import Mathlib

namespace YtLi

/-! ## Association-list store primitives (Python dict / Redis hash semantics) -/

/-- First value bound to key `k`, if any (Python `d.get(k)` / Redis `hget`). -/
def lookupA {α : Type} (m : List (String × α)) (k : String) : Option α :=
  (m.find? (fun p => p.1 == k)).map (·.2)

/-- `d.get(k, dflt)`. -/
def lookupD {α : Type} (m : List (String × α)) (k : String) (d : α) : α :=
  (lookupA m k).getD d

/-- `d[k] = v`: replace the (unique) existing binding in place if the key
exists, else append (dict insertion-order semantics). -/
def setA {α : Type} : List (String × α) → String → α → List (String × α)
  | [], k, v => [(k, v)]
  | p :: m, k, v => if p.1 == k then (k, v) :: m else p :: setA m k v

/-- `del d[k]` / Redis `delete`. -/
def eraseA {α : Type} (m : List (String × α)) (k : String) : List (String × α) :=
  m.filter (fun p => p.1 != k)

theorem lookupA_nil {α : Type} (k : String) : lookupA ([] : List (String × α)) k = none := rfl

theorem lookupA_cons {α : Type} (p : String × α) (m : List (String × α)) (k : String) :
    lookupA (p :: m) k = if p.1 == k then some p.2 else lookupA m k := by
  simp only [lookupA, List.find?]
  cases h : p.1 == k <;> simp [h]

theorem lookupA_setA_self {α : Type} (m : List (String × α)) (k : String) (v : α) :
    lookupA (setA m k v) k = some v := by
  induction m with
  | nil => simp [setA, lookupA]
  | cons p m ih =>
    by_cases hpk : p.1 = k
    · simp [setA, hpk, lookupA_cons]
    · have hpk' : (p.1 == k) = false := by simp [hpk]
      simp [setA, hpk', lookupA_cons, ih]

theorem lookupA_setA_ne {α : Type} (m : List (String × α)) (k k' : String) (v : α)
    (h : k' ≠ k) : lookupA (setA m k v) k' = lookupA m k' := by
  have hk : (k == k') = false := by
    simp only [beq_eq_false_iff_ne]; exact Ne.symm h
  induction m with
  | nil => simp [setA, lookupA_cons, lookupA_nil, hk]
  | cons p m ih =>
    by_cases hpk : p.1 = k
    · have hpk'' : (p.1 == k') = false := by rw [hpk]; exact hk
      simp [setA, hpk, lookupA_cons, hk, hpk'']
    · have hpk' : (p.1 == k) = false := by simp [hpk]
      simp [setA, hpk', lookupA_cons, ih]

theorem lookupA_eraseA_self {α : Type} (m : List (String × α)) (k : String) :
    lookupA (eraseA m k) k = none := by
  induction m with
  | nil => rfl
  | cons p m ih =>
    by_cases hpk : p.1 = k
    · have : (p.1 != k) = false := by simp [hpk]
      simpa [eraseA, List.filter_cons, this] using ih
    · have : (p.1 != k) = true := by simp [hpk]
      have hpk' : (p.1 == k) = false := by simp [hpk]
      simpa [eraseA, List.filter_cons, this, lookupA_cons, hpk'] using ih

/-! ## SimpleQueue (src/app/queue_manager.py)

Per-client URL queues plus a bounded done-history, with an in-process
fallback when the KV store is unconfigured.  `redisPresent` records whether
the shared store is configured; queue operations behave identically on the
list level in both modes (the Redis mode serializes the same list as
newline-joined text), while `mark_done` / `get_history` are guarded by it. -/

structure QueueStore where
  redisPresent : Bool
  queues : List (String × List String)
  /-- `youtube_done_v2:<client>` lists; each record is `(url, done_at)`. -/
  done : List (String × List (String × String))
deriving DecidableEq, Repr

/-- `SimpleQueue.get_urls`. -/
def get_urls (st : QueueStore) (client : String) : List String :=
  lookupD st.queues client []

/-- `SimpleQueue.set_urls`. -/
def set_urls (st : QueueStore) (client : String) (urls : List String) : QueueStore :=
  { st with queues := setA st.queues client urls }

/-- `SimpleQueue.add_url`: append only when the url is not already queued. -/
def add_url (st : QueueStore) (client url : String) : QueueStore :=
  let urls := get_urls st client
  if url ∈ urls then st else set_urls st client (urls ++ [url])

/-- `SimpleQueue.pop_next`: pop and return the head, `none` on empty. -/
def pop_next (st : QueueStore) (client : String) : Option String × QueueStore :=
  match get_urls st client with
  | [] => (none, st)
  | u :: rest => (some u, set_urls st client rest)

/-- `SimpleQueue.mark_done`: no-op without the store; otherwise `lpush` the
record and `ltrim` to the most recent 20. -/
def mark_done (st : QueueStore) (client url now : String) : QueueStore :=
  if st.redisPresent then
    { st with done := setA st.done client (((url, now) :: lookupD st.done client []).take 20) }
  else st

/-- `SimpleQueue.get_history`: empty without the store. -/
def get_history (st : QueueStore) (client : String) : List (String × String) :=
  if st.redisPresent then lookupD st.done client [] else []

theorem get_urls_set_urls_self (st : QueueStore) (c : String) (l : List String) :
    get_urls (set_urls st c l) c = l := by
  simp [get_urls, set_urls, lookupD, lookupA_setA_self]

theorem get_urls_set_urls_ne (st : QueueStore) (c c' : String) (l : List String)
    (h : c' ≠ c) : get_urls (set_urls st c l) c' = get_urls st c' := by
  simp [get_urls, set_urls, lookupD, lookupA_setA_ne _ _ _ _ h]

theorem add_url_of_mem (st : QueueStore) (c u : String) (h : u ∈ get_urls st c) :
    add_url st c u = st := by
  simp [add_url, h]

theorem mem_get_urls_add_url (st : QueueStore) (c u : String) :
    u ∈ get_urls (add_url st c u) c := by
  unfold add_url
  by_cases h : u ∈ get_urls st c
  · simp [h]
  · simp [h, get_urls_set_urls_self]

theorem get_urls_add_url_nodup (st : QueueStore) (c u : String)
    (hst : ∀ c', (get_urls st c').Nodup) (c' : String) :
    (get_urls (add_url st c u) c').Nodup := by
  unfold add_url
  by_cases h : u ∈ get_urls st c
  · simpa [h] using hst c'
  · simp only [h, if_false]
    by_cases hc : c' = c
    · subst hc
      rw [get_urls_set_urls_self]
      exact (List.nodup_append).2 ⟨hst c', List.nodup_singleton u,
        by simpa [List.disjoint_singleton] using h⟩
    · rw [get_urls_set_urls_ne _ _ _ _ hc]
      exact hst c'

/-- A queue store with no URLs queued yet (as after construction). -/
def emptyStore (redisPresent : Bool) : QueueStore :=
  { redisPresent := redisPresent, queues := [], done := [] }

/-- Replay a sequence of `(client, url)` enqueues. -/
def enqueueAll (st : QueueStore) (ops : List (String × String)) : QueueStore :=
  ops.foldl (fun s p => add_url s p.1 p.2) st

theorem enqueueAll_nodup (ops : List (String × String)) (st : QueueStore)
    (hst : ∀ c, (get_urls st c).Nodup) (c : String) :
    (get_urls (enqueueAll st ops) c).Nodup := by
  induction ops generalizing st with
  | nil => exact hst c
  | cons p ops ih =>
    exact ih _ (fun c' => get_urls_add_url_nodup st p.1 p.2 hst c')

theorem enqueueAll_append (st : QueueStore) (ops₁ ops₂ : List (String × String)) :
    enqueueAll st (ops₁ ++ ops₂) = enqueueAll (enqueueAll st ops₁) ops₂ := by
  simp [enqueueAll, List.foldl_append]

theorem emptyStore_nodup (b : Bool) (c : String) : (get_urls (emptyStore b) c).Nodup := by
  simp [get_urls, emptyStore, lookupD, lookupA]

/-- C3: enqueuing a URL already present in a client's queue leaves the store
unchanged; enqueuing it twice in a row (after any prior enqueues from a fresh
store) leaves it in the queue exactly once; and after any sequence of
enqueues from a fresh store a URL appears at most once per client queue. -/
theorem enqueue_idempotent_and_unique :
    (∀ st c u, u ∈ get_urls st c → add_url st c u = st) ∧
    (∀ b ops c u,
      (get_urls (enqueueAll (emptyStore b) (ops ++ [(c, u), (c, u)])) c).count u = 1) ∧
    (∀ b ops c u, (get_urls (enqueueAll (emptyStore b) ops) c).count u ≤ 1) := by
  refine ⟨fun st c u h => add_url_of_mem st c u h, ?_, ?_⟩
  · intro b ops c u
    rw [enqueueAll_append]
    set st₁ := enqueueAll (emptyStore b) ops with hst₁
    have hnodup₁ : ∀ c', (get_urls st₁ c').Nodup :=
      fun c' => enqueueAll_nodup ops (emptyStore b) (emptyStore_nodup b) c'
    have hmem : u ∈ get_urls (add_url st₁ c u) c := mem_get_urls_add_url st₁ c u
    have hnodup₂ : ∀ c', (get_urls (add_url st₁ c u) c').Nodup :=
      fun c' => get_urls_add_url_nodup st₁ c u hnodup₁ c'
    have hsecond : add_url (add_url st₁ c u) c u = add_url st₁ c u :=
      add_url_of_mem _ c u hmem
    show (get_urls (add_url (add_url st₁ c u) c u) c).count u = 1
    rw [hsecond]
    exact List.count_eq_one_of_mem (hnodup₂ c) hmem
  · intro b ops c u
    exact List.nodup_iff_count_le_one.1
      (enqueueAll_nodup ops (emptyStore b) (emptyStore_nodup b) c) u

/-- Witness for C3 at a concrete store: `"u1"` is already queued for `"drew"`,
so re-enqueuing it is a silent no-op. -/
theorem enqueue_idempotent_and_unique_witness :
    "u1" ∈ get_urls ⟨true, [("drew", ["u1"])], []⟩ "drew" ∧
    add_url ⟨true, [("drew", ["u1"])], []⟩ "drew" "u1" = ⟨true, [("drew", ["u1"])], []⟩ ∧
    (get_urls (enqueueAll (emptyStore true) [("drew", "u1"), ("drew", "u1")]) "drew").count "u1"
      = 1 :=
  ⟨by decide,
   enqueue_idempotent_and_unique.1 ⟨true, [("drew", ["u1"])], []⟩ "drew" "u1" (by decide),
   enqueue_idempotent_and_unique.2.1 true [] "drew" "u1"⟩

/-! ## DailyPostTracker (src/app/queue_manager.py)

Time is abstracted to the weekday number (`datetime.now(CHICAGO_TZ).weekday()`,
0 = Monday .. 6 = Sunday) and the date string (`YYYY-MM-DD` in Chicago time);
counts live in the local fallback dict `{date: count}` (the Redis mode uses
`incr` on the same key with identical arithmetic). -/

def MAX_POSTS_PER_DAY : Nat := 5

/-- `DailyPostTracker.is_weekday`: Monday..Friday in the Chicago timezone. -/
def is_weekday (weekday : Nat) : Bool := weekday < 5

/-- `DailyPostTracker.get_daily_count` for a given date. -/
def get_daily_count (counts : List (String × Nat)) (date : String) : Nat :=
  lookupD counts date 0

/-- `DailyPostTracker.increment_daily_count`: unconditional `+1`, no ceiling;
returns the new count together with the updated counter state. -/
def increment_daily_count (counts : List (String × Nat)) (date : String) :
    Nat × List (String × Nat) :=
  let c := get_daily_count counts date + 1
  (c, setA counts date c)

/-- `DailyPostTracker.can_post_today`: weekday gate first, then the cap. -/
def can_post_today (weekday : Nat) (countToday : Nat) : Bool :=
  if !(is_weekday weekday) then false
  else countToday < MAX_POSTS_PER_DAY

/-- C4: `can_post_today` is exactly `is_weekday AND count < 5` (Chicago
weekday numbering, 5 = Saturday, 6 = Sunday): false on Saturday and Sunday
for every count, false on any day once the count reaches 5, while the
counter itself increments past 5 without a ceiling. -/
theorem can_post_today_charn :
    (∀ wd c, can_post_today wd c = (is_weekday wd && decide (c < MAX_POSTS_PER_DAY))) ∧
    (∀ c, can_post_today 5 c = false) ∧
    (∀ c, can_post_today 6 c = false) ∧
    (∀ wd k, can_post_today wd (MAX_POSTS_PER_DAY + k) = false) ∧
    (∀ counts date, (increment_daily_count counts date).1 = get_daily_count counts date + 1) := by
  refine ⟨?_, ?_, ?_, ?_, fun _ _ => rfl⟩
  · intro wd c
    unfold can_post_today
    cases h : is_weekday wd <;> simp [h]
  · intro c; rfl
  · intro c; rfl
  · intro wd k
    unfold can_post_today
    cases h : is_weekday wd <;> simp [h, MAX_POSTS_PER_DAY, Nat.not_lt, Nat.le_add_right]

/-! ## ClientManager (src/app/queue_manager.py) and the /delete_client command
(src/api/index.py)

Client records are modelled as opaque strings (their contents are irrelevant
to removal).  The reserved default client `"drew"` is protected at the
command layer: the Telegram `/delete_client` handler refuses it before ever
calling `ClientManager.remove_client`. -/

/-- `ClientManager.remove_client`: delete the entry when present, else do
nothing (no error either way). -/
def remove_client (clients : List (String × String)) (name : String) :
    List (String × String) :=
  if (lookupA clients name).isSome then eraseA clients name else clients

inductive DeleteClientOutcome
  | protectedResource
  | deleted
deriving DecidableEq, Repr

/-- The `/delete_client <name>` command (src/api/index.py:817-826).  `name`
is the command argument after the handler's stripping/lowercasing; the
reserved name `"drew"` is refused without touching the registry, anything
else goes through `remove_client`. -/
def delete_client_cmd (clients : List (String × String)) (name : String) :
    DeleteClientOutcome × List (String × String) :=
  if name == "drew" then (DeleteClientOutcome.protectedResource, clients)
  else (DeleteClientOutcome.deleted, remove_client clients name)

theorem remove_client_absent (clients : List (String × String)) (name : String)
    (h : lookupA clients name = none) : remove_client clients name = clients := by
  simp [remove_client, h]

/-- C7: removing an absent client name is a no-op, and removing the reserved
default name `"drew"` fails with the protected-resource outcome and leaves
the registry — in particular drew's record — unchanged. -/
theorem remove_client_charn :
    (∀ clients name, lookupA clients name = none → remove_client clients name = clients) ∧
    (∀ clients, delete_client_cmd clients "drew" =
        (DeleteClientOutcome.protectedResource, clients)) ∧
    (∀ clients, lookupA (delete_client_cmd clients "drew").2 "drew" = lookupA clients "drew") :=
  ⟨fun clients name h => remove_client_absent clients name h,
   fun _ => rfl,
   fun _ => rfl⟩

/-- Witness for C7 at a concrete registry. -/
theorem remove_client_charn_witness :
    lookupA [("bob", "acct1")] "alice" = none ∧
    remove_client [("bob", "acct1")] "alice" = [("bob", "acct1")] ∧
    delete_client_cmd [("drew", "acct0")] "drew" =
      (DeleteClientOutcome.protectedResource, [("drew", "acct0")]) :=
  ⟨by decide,
   remove_client_charn.1 [("bob", "acct1")] "alice" (by decide),
   remove_client_charn.2.1 [("drew", "acct0")]⟩

/-! ## ExperimentTracker (src/app/queue_manager.py)

Weights are Python floats, but every value they can take is a multiple of
0.5 between 1.0 and 5.0, all exactly representable, so ℚ is a faithful
model.  `won_at`/`created_at` timestamps are abstract strings supplied by
the caller. -/

structure Experiment where
  post_id : String
  variation : String
  url : String
  post_preview : String
  is_winner : Bool
  won_at : Option String
deriving DecidableEq, Repr

structure ExpStore where
  /-- Redis hash `post_experiments`: post_id → record. -/
  experiments : List (String × Experiment)
  /-- Redis list `post_winners` (most recent first, trimmed to 50). -/
  winners : List Experiment
  /-- Redis key `variation_weights`: JSON map key → weight. -/
  weights : List (String × ℚ)
deriving DecidableEq, Repr

/-- `ExperimentTracker.get_weights`. -/
def get_weights (st : ExpStore) : List (String × ℚ) := st.weights

/-- `ExperimentTracker._update_weights`: bump the weight stored under the
(single) key `winning_variation` by 0.5, capped at 5.0; default 1.0. -/
def update_weights (ws : List (String × ℚ)) (winning_variation : String) :
    List (String × ℚ) :=
  setA ws winning_variation (min (lookupD ws winning_variation 1 + 1/2) 5)

/-- `ExperimentTracker.mark_winner`: unknown post_id → `(false, unchanged)`;
otherwise flag the experiment, prepend it to the winners list (trim 50) and
update the weight of its composite `variation` string. -/
def mark_winner (st : ExpStore) (post_id now : String) : Bool × ExpStore :=
  match lookupA st.experiments post_id with
  | none => (false, st)
  | some e =>
    let e' := { e with is_winner := true, won_at := some now }
    (true,
      { experiments := setA st.experiments post_id e'
        winners := (e' :: st.winners).take 50
        weights := update_weights st.weights e'.variation })

/-- C5: `mark_winner` on a post_id absent from the experiment hash returns
false and leaves the whole store — weights, winners list and experiment
records — untouched. -/
theorem mark_winner_unknown_noop (st : ExpStore) (post_id now : String)
    (h : lookupA st.experiments post_id = none) :
    mark_winner st post_id now = (false, st) := by
  unfold mark_winner
  rw [h]

/-- A concrete experiment store holding one logged experiment whose
variation is the pipe-delimited composite of four axis choices. -/
def stExp : ExpStore :=
  { experiments :=
      [("p1",
        { post_id := "p1"
          variation := "bold_claim|bullets_bold|impressive_part|which_first"
          url := "https://youtu.be/abc12345678"
          post_preview := "t"
          is_winner := false
          won_at := none })]
    winners := []
    weights := [] }

/-- Witness for C5 at `stExp` and an unknown post_id. -/
theorem mark_winner_unknown_noop_witness :
    lookupA stExp.experiments "nope" = none ∧
    mark_winner stExp "nope" "2026-01-01" = (false, stExp) :=
  ⟨by decide, mark_winner_unknown_noop stExp "nope" "2026-01-01" (by decide)⟩

/-- C1 (counter-evidence): marking the stored post a winner returns true but
bumps only the weight of the composite pipe-joined `variation_id` string to
1.5; none of the four individual `axis:option` component keys — the keys the
variation selector actually reads — is created or changed. -/
theorem mark_winner_updates_composite_only :
    (mark_winner stExp "p1" "2026-01-01").1 = true ∧
    lookupA (mark_winner stExp "p1" "2026-01-01").2.weights
      "bold_claim|bullets_bold|impressive_part|which_first" = some (3/2) ∧
    lookupA (mark_winner stExp "p1" "2026-01-01").2.weights "hook:bold_claim" = none ∧
    lookupA (mark_winner stExp "p1" "2026-01-01").2.weights "structure:bullets_bold" = none ∧
    lookupA (mark_winner stExp "p1" "2026-01-01").2.weights "closer:impressive_part" = none ∧
    lookupA (mark_winner stExp "p1" "2026-01-01").2.weights "cta:which_first" = none := by
  refine ⟨rfl, ?_, rfl, rfl, rfl, rfl⟩
  show some (min ((1 : ℚ) + 1/2) 5) = some (3/2)
  norm_num

/-! ## Variation selection (src/app/services.py)

`ContentPipeline._select_variation` draws one option per axis.  The option
names, in the insertion order of the Python dicts: -/

def HOOK_OPTIONS : List String :=
  ["bold_claim", "personal_test", "numbers_first", "question_hook", "pattern_interrupt"]

def STRUCTURE_OPTIONS : List String :=
  ["bullets_bold", "numbered_steps", "short_paragraphs", "problem_solution"]

def CLOSER_OPTIONS : List String :=
  ["impressive_part", "mindset_shift", "bottom_line", "real_talk"]

def CTA_OPTIONS : List String :=
  ["which_first", "what_would", "drop_comment", "save_this", "hot_take"]

/-- The per-option weights fed into one `weighted_choice` draw:
`weights.get(f"{category}:{name}", 1.0)` for each option in order. -/
def weighted_items (options : List String) (category : String)
    (weights : List (String × ℚ)) : List (String × ℚ) :=
  options.map (fun n => (n, lookupD weights (category ++ ":" ++ n) 1))

/-- The cumulative walk inside `weighted_choice`: accumulate weights in
order and return the first option whose cumulative weight reaches the
draw `r`. -/
def weighted_walk : List (String × ℚ) → ℚ → ℚ → Option String
  | [], _, _ => none
  | (n, w) :: rest, cum, r =>
    if r ≤ cum + w then some n else weighted_walk rest (cum + w) r

/-- `weighted_choice(options, category)` given the draw `r` (the code draws
`r = random.random() * total`); falls back to the last option. -/
def weighted_choice (options : List String) (category : String)
    (weights : List (String × ℚ)) (r : ℚ) : String :=
  (weighted_walk (weighted_items options category weights) 0 r).getD
    (options.getLast?.getD "")

/-- `ContentPipeline._select_variation`: four independent draws, composite
`variation_id` joined with pipes.  `weights = weights or {}` is applied by
the caller-facing wrapper below. -/
def select_variation (weights : List (String × ℚ)) (r1 r2 r3 r4 : ℚ) : String :=
  weighted_choice HOOK_OPTIONS "hook" weights r1 ++ "|" ++
  weighted_choice STRUCTURE_OPTIONS "structure" weights r2 ++ "|" ++
  weighted_choice CLOSER_OPTIONS "closer" weights r3 ++ "|" ++
  weighted_choice CTA_OPTIONS "cta" weights r4

/-- `_select_variation`'s `weights = weights or {}` applied to the optional
`weights` parameter of `generate_post_claude` (default `None`). -/
def select_variation_call (weights : Option (List (String × ℚ)))
    (r1 r2 r3 r4 : ℚ) : String :=
  select_variation (weights.getD []) r1 r2 r3 r4

/-- The variation drafted inside `ContentPipeline.run_all` as invoked from
the `/go` handler: the handler fetches `storedWeights = tracker.get_weights()`
(src/api/index.py:726-727) but `run_all` calls
`self.generate_post_claude(content)` with no weights argument
(src/app/services.py:736), so the optional parameter stays `None`. -/
def go_draft_variation (storedWeights : List (String × ℚ)) (r1 r2 r3 r4 : ℚ) : String :=
  select_variation_call none r1 r2 r3 r4

/-- C2 (counter-evidence): the `/go`/`run_all` drafting step ignores the
recorded weight snapshot — it always selects with the empty weight map, so
every option is drawn with weight 1.0.  Concretely, with stored weight 2.0
on `hook:bold_claim` and hook-axis draw 1.5, the code picks
`personal_test`, whereas selection using the stored snapshot (what the claim
describes) picks `bold_claim`. -/
theorem go_draft_ignores_weights :
    (∀ storedWeights r1 r2 r3 r4, go_draft_variation storedWeights r1 r2 r3 r4 =
        select_variation [] r1 r2 r3 r4) ∧
    go_draft_variation [("hook:bold_claim", 2)] (3/2) 0 0 0 =
      "personal_test|bullets_bold|impressive_part|which_first" ∧
    select_variation [("hook:bold_claim", 2)] (3/2) 0 0 0 =
      "bold_claim|bullets_bold|impressive_part|which_first" ∧
    lookupD (weighted_items HOOK_OPTIONS "hook" []) "bold_claim" 1 = 1 ∧
    lookupD [("hook:bold_claim", (2 : ℚ))] "hook:bold_claim" 1 = 2 := by
  refine ⟨fun _ _ _ _ _ => rfl, ?_, ?_, ?_, ?_⟩ <;>
    · simp only [go_draft_variation, select_variation_call, select_variation,
        weighted_choice, weighted_items, HOOK_OPTIONS, STRUCTURE_OPTIONS,
        CLOSER_OPTIONS, CTA_OPTIONS, lookupD, lookupA_cons, lookupA_nil,
        List.map, Option.getD_none, Option.getD_some]
      try simp
      try norm_num [weighted_walk]
      try rfl

/-! ## Preview / approve / cancel (src/api/index.py, handle_callback_query)

Staged bundles live under Redis keys `preview:<client>:<url_hash>` with a
24-hour TTL.  TTL expiry is implicit: an expired key simply no longer
exists, so it is indistinguishable from one that was never staged. -/

/-- Staged preview bundles, keyed by the full preview key. -/
abbrev PreviewStore : Type := List (String × String)

def preview_key (client urlHash : String) : String :=
  "preview:" ++ client ++ ":" ++ urlHash

/-- The `cancel` callback: unconditionally delete the stage. -/
def cancel_action (ps : PreviewStore) (client urlHash : String) : PreviewStore :=
  eraseA ps (preview_key client urlHash)

inductive ApproveOutcome
  | stageNotFound
  | published
  | publishFailed
deriving DecidableEq, Repr

structure ApproveResult where
  outcome : ApproveOutcome
  store : PreviewStore
  /-- whether `post_blotato` was invoked -/
  publishCalled : Bool
  /-- whether `mark_done` recorded a history entry -/
  historyRecorded : Bool
deriving DecidableEq, Repr

/-- The `post` (approve) callback: load the staged bundle — a missing or
expired key yields the not-found outcome with no publish call and no
history write; otherwise publish, and only on success record history and
delete the stage (`publishOk` abstracts the external publish call). -/
def post_action (ps : PreviewStore) (client urlHash : String) (publishOk : Bool) :
    ApproveResult :=
  match lookupA ps (preview_key client urlHash) with
  | none => ⟨ApproveOutcome.stageNotFound, ps, false, false⟩
  | some _ =>
    if publishOk then
      ⟨ApproveOutcome.published, eraseA ps (preview_key client urlHash), true, true⟩
    else
      ⟨ApproveOutcome.publishFailed, ps, true, false⟩

/-- C6: approving a key right after cancelling it fails with the
stage-not-found outcome, calls no publish, records no history — and this is
exactly the result of approving any store in which the key is absent
(which is what TTL expiry leaves behind). -/
theorem approve_after_cancel_not_found :
    (∀ ps client urlHash publishOk,
      post_action (cancel_action ps client urlHash) client urlHash publishOk =
        ⟨ApproveOutcome.stageNotFound, cancel_action ps client urlHash, false, false⟩) ∧
    (∀ ps client urlHash publishOk,
      lookupA ps (preview_key client urlHash) = none →
      post_action ps client urlHash publishOk =
        ⟨ApproveOutcome.stageNotFound, ps, false, false⟩) := by
  constructor
  · intro ps client urlHash publishOk
    unfold post_action cancel_action
    rw [lookupA_eraseA_self]
  · intro ps client urlHash publishOk h
    unfold post_action
    rw [h]

/-- Witness for C6 at the concrete key `(client="drew", url_hash="abc123")`:
stage it, cancel it, approve it. -/
theorem approve_after_cancel_not_found_witness :
    post_action (cancel_action [(preview_key "drew" "abc123", "bundle")] "drew" "abc123")
        "drew" "abc123" true =
      ⟨ApproveOutcome.stageNotFound,
        cancel_action [(preview_key "drew" "abc123", "bundle")] "drew" "abc123",
        false, false⟩ ∧
    lookupA ([] : PreviewStore) (preview_key "drew" "abc123") = none ∧
    post_action ([] : PreviewStore) "drew" "abc123" true =
      ⟨ApproveOutcome.stageNotFound, [], false, false⟩ :=
  ⟨approve_after_cancel_not_found.1 [(preview_key "drew" "abc123", "bundle")] "drew" "abc123" true,
   rfl,
   approve_after_cancel_not_found.2 [] "drew" "abc123" true rfl⟩

/-! ## The /go command's lock discipline (src/api/index.py:695-769)

The handler acquires `processing_lock:<client>` (5-minute TTL `setex`),
pops the queue, and generates + stages a preview inside a
`try/except/finally` whose `finally` deletes the lock; the empty-queue
early return deletes it explicitly.  Content generation (`run_all`) and
preview staging are abstracted as `Except` results; the second component of
the result records whether the lock is still held when the handler
returns. -/

inductive GoExit
  | busy
  | emptyQueue
  | staged
  | failed
deriving DecidableEq, Repr

/-- One `/go` (or `/process`) run for a single client.  `lockAlreadyHeld` is
whether `processing_lock:<client>` existed when the handler looked;
`queue` is the client's queue; `gen` is the outcome of `run_all`; `stage`
is the outcome of storing the preview and sending the Telegram message. -/
def go_handler (lockAlreadyHeld : Bool) (queue : List String)
    (gen : Except String String) (stage : Except String Unit) : GoExit × Bool :=
  if lockAlreadyHeld then
    -- "Already processing" early return: the other holder's lock stays.
    (GoExit.busy, true)
  else
    -- q.redis.setex(lock_key, 300, "1"): the lock is now held.
    match queue with
    | [] =>
      -- empty queue: q.redis.delete(lock_key) then return
      (GoExit.emptyQueue, false)
    | _ :: _ =>
      match gen with
      | Except.error _ =>
        -- exception in run_all → except branch → finally deletes the lock
        (GoExit.failed, false)
      | Except.ok _ =>
        match stage with
        | Except.error _ =>
          -- exception while staging/notifying → except → finally deletes
          (GoExit.failed, false)
        | Except.ok _ =>
          -- preview staged → finally deletes the lock
          (GoExit.staged, false)

/-- C8: whenever the `/go` handler acquires the processing lock (no lock was
already held), the lock is released before the handler returns, on the
empty-queue early return, on successful preview staging, and on any
exception during generation or staging. -/
theorem go_handler_releases_lock :
    ∀ (queue : List String) (gen : Except String String) (stage : Except String Unit),
      (go_handler false queue gen stage).2 = false := by
  intro queue gen stage
  unfold go_handler
  cases queue with
  | nil => rfl
  | cons u rest =>
    cases gen with
    | error e => rfl
    | ok r =>
      cases stage with
      | error e => rfl
      | ok u => rfl

/-! ## The rate-limited all-clients sweep (src/api/index.py, auto_process_all)

State relevant to the sweep: the Chicago weekday, today's daily count, the
client registry restricted to what the sweep reads (`preview_mode`), the
per-client queues, how many bundles were staged as previews, and how many
publish calls `run_all` has made.  `run_all` itself is abstracted as an
`Except` outcome (`pipe`). -/

structure AutoState where
  weekday : Nat
  count : Nat
  /-- client name → `preview_mode` flag (`client_info.get('preview_mode', False)`). -/
  clients : List (String × Bool)
  queues : List (String × List String)
  /-- staged auto-previews, keyed by `preview:<client>:<url_hash>`. -/
  previews : List (String × String)
  /-- number of publish calls made by `run_all` so far. -/
  publishedCount : Nat
deriving DecidableEq, Repr

inductive AutoOutcome
  | weekend
  | dailyLimit
  | idle
  | previewed
  | posted
  | failed
deriving DecidableEq, Repr

/-- `['drew'] + list(clients.get_all().keys())`. -/
def all_client_names (st : AutoState) : List String :=
  "drew" :: st.clients.map (·.1)

/-- The round-robin scan: first client whose queue is non-empty. -/
def first_client_with_url (st : AutoState) : Option String :=
  (all_client_names st).find? (fun c => !(lookupD st.queues c []).isEmpty)

/-- `auto_process_all`: weekday gate, daily-cap gate, pick the first
non-empty queue, pop it, run the pipeline with `skip_post=preview_mode`.
In preview mode the bundle is staged and the daily count is incremented
even though nothing was published; otherwise the publish happened inside
`run_all` and the count is incremented as well.  A pipeline exception
increments nothing (and does not re-enqueue the popped URL). -/
def auto_process_all (st : AutoState) (pipe : Except String String)
    (urlHash : String) : AutoOutcome × AutoState :=
  if !(is_weekday st.weekday) then (AutoOutcome.weekend, st)
  else if !(st.count < MAX_POSTS_PER_DAY) then (AutoOutcome.dailyLimit, st)
  else
    match first_client_with_url st with
    | none => (AutoOutcome.idle, st)
    | some c =>
      let urls := lookupD st.queues c []
      let st₁ := { st with queues := setA st.queues c urls.tail }
      let previewEnabled := lookupD st.clients c false
      match pipe with
      | Except.error _ => (AutoOutcome.failed, st₁)
      | Except.ok bundle =>
        if previewEnabled then
          (AutoOutcome.previewed,
            { st₁ with
                previews := setA st₁.previews ("preview:" ++ c ++ ":" ++ urlHash) bundle
                count := st₁.count + 1 })
        else
          (AutoOutcome.posted,
            { st₁ with
                count := st₁.count + 1
                publishedCount := st₁.publishedCount + 1 })

/-- C9: when the sweep completes a job for a client whose `preview_mode` is
enabled, the daily counter is incremented even though no publish call was
made — the daily cap counts generated bundles, previews included. -/
theorem auto_preview_increments_count (st : AutoState) (c : String)
    (bundle urlHash : String)
    (hwd : is_weekday st.weekday = true)
    (hcount : st.count < MAX_POSTS_PER_DAY)
    (hc : first_client_with_url st = some c)
    (hpreview : lookupD st.clients c false = true) :
    (auto_process_all st (Except.ok bundle) urlHash).1 = AutoOutcome.previewed ∧
    (auto_process_all st (Except.ok bundle) urlHash).2.count = st.count + 1 ∧
    (auto_process_all st (Except.ok bundle) urlHash).2.publishedCount = st.publishedCount := by
  refine ⟨?_, ?_, ?_⟩ <;> simp [auto_process_all, hwd, hc, hcount, hpreview]

/-- Witness for C9: one client `"drew"` with preview mode on, one queued
URL, a Tuesday with no posts yet. -/
theorem auto_preview_increments_count_witness :
    is_weekday 1 = true ∧
    first_client_with_url ⟨1, 0, [("drew", true)], [("drew", ["u1"])], [], 0⟩ = some "drew" ∧
    (auto_process_all ⟨1, 0, [("drew", true)], [("drew", ["u1"])], [], 0⟩
        (Except.ok "bundle") "h1").1 = AutoOutcome.previewed ∧
    (auto_process_all ⟨1, 0, [("drew", true)], [("drew", ["u1"])], [], 0⟩
        (Except.ok "bundle") "h1").2.count = 1 ∧
    (auto_process_all ⟨1, 0, [("drew", true)], [("drew", ["u1"])], [], 0⟩
        (Except.ok "bundle") "h1").2.publishedCount = 0 := by
  refine ⟨rfl, by decide, ?_⟩
  have h := auto_preview_increments_count
    ⟨1, 0, [("drew", true)], [("drew", ["u1"])], [], 0⟩ "drew" "bundle" "h1"
    rfl (by decide) (by decide) (by decide)
  exact ⟨h.1, h.2.1, h.2.2⟩

/-- C10: with the shared store unconfigured, `mark_done` is a no-op for
every client/url and `get_history` is empty — completions are silently not
recorded — while enqueue and dequeue keep working on the in-memory
fallback. -/
theorem degraded_mode_history_noop (st : QueueStore) (h : st.redisPresent = false) :
    (∀ client url now, mark_done st client url now = st) ∧
    (∀ client, get_history st client = []) ∧
    (∀ client url, url ∈ get_urls (add_url st client url) client) ∧
    (∀ client, (pop_next st client).1 = (get_urls st client).head?) := by
  refine ⟨?_, ?_, ?_, ?_⟩
  · intro client url now; simp [mark_done, h]
  · intro client; simp [get_history, h]
  · intro client url; exact mem_get_urls_add_url st client url
  · intro client
    unfold pop_next
    cases hq : get_urls st client <;> simp [hq]

/-- Witness for C10 at a concrete degraded store with one queued URL. -/
theorem degraded_mode_history_noop_witness :
    (⟨false, [("drew", ["u1"])], [("drew", [("u0", "t0")])]⟩ : QueueStore).redisPresent
        = false ∧
    mark_done ⟨false, [("drew", ["u1"])], [("drew", [("u0", "t0")])]⟩ "drew" "u1" "t1" =
      ⟨false, [("drew", ["u1"])], [("drew", [("u0", "t0")])]⟩ ∧
    get_history ⟨false, [("drew", ["u1"])], [("drew", [("u0", "t0")])]⟩ "drew" = [] ∧
    (pop_next ⟨false, [("drew", ["u1"])], [("drew", [("u0", "t0")])]⟩ "drew").1 = some "u1" := by
  have h := degraded_mode_history_noop
    ⟨false, [("drew", ["u1"])], [("drew", [("u0", "t0")])]⟩ rfl
  exact ⟨rfl, h.1 "drew" "u1" "t1", h.2.1 "drew", by
    rw [h.2.2.2 "drew"]; rfl⟩

end YtLi
